import Mathlib

/-!
Verification of the Waves auto-lessor orchestration pipeline (`lessor.go`).

The development shallowly embeds the amount-policy arithmetic, the
orchestrator's control flow, the confirmation-tracking loop, the
protobuf-activation check and the configuration validation of `run` and
`main`.  Go `uint64` values are modelled as naturals reduced modulo `2^64`
where the source can wrap; Go `int64` values as integers wrapped into the
two's-complement range where the source can wrap.  External collaborators
(node client, key codecs) are modelled at the interface boundary the spec
describes: their answers are inputs to the embedded functions.
-/

deriving instance DecidableEq for Except

namespace WavesLessor

/-- Base protocol fee in wavelets (`lessor.go`: `standardFee uint64 = 100000`). -/
def standardFee : Nat := 100000

/-- One whole WAVES in wavelets, also the test-run cap (`lessor.go`: `waves = 100000000`). -/
def waves : Nat := 100000000

/-- Reinterpret a `uint64` value (a natural below `2^64`) as a Go `int64`
(two's-complement), as the conversion `int64(balance)` does. -/
def toInt64 (n : Nat) : Int :=
  if n % 2 ^ 64 < 2 ^ 63 then ((n % 2 ^ 64 : Nat) : Int)
  else ((n % 2 ^ 64 : Nat) : Int) - 2 ^ 64

/-- Wrap an integer into the `int64` range, as Go two's-complement `int64`
arithmetic does on overflow. -/
def wrapInt64 (z : Int) : Int := (z + 2 ^ 63) % 2 ^ 64 - 2 ^ 63

/-- The irreducible-balance reservation step (`lessor.go:324-331`, and identically
`408-415`): when `irreducibleBalance > 0`, the source computes
`b := int64(balance) - irreducibleBalance` in Go `int64` arithmetic and sets
`balance` to `uint64(b)` if `b > 0`, else to `0`. -/
def applyIrreducible (balance : Nat) (irreducibleBalance : Int) : Nat :=
  if 0 < irreducibleBalance then
    let b : Int := wrapInt64 (toInt64 balance - irreducibleBalance)
    if 0 < b then b.toNat else 0
  else balance

/-- Policy failures of the amount computation (spec: `InsufficientBalanceError`,
`NonPositiveAmountError`; both are reported as `errFailure` by the source). -/
inductive AmountError
  | insufficientBalance
  | nonPositiveAmount
deriving DecidableEq

/-- Balance adjustment before the fee subtraction (`lessor.go:324-338`, and
identically `408-422`): apply the irreducible reservation, fail when the result
does not exceed `standardFee`, then apply the test-run cap
(`if balance > waves && testRun`). -/
def adjustedBalance (rawBalance : Nat) (irreducibleBalance : Int) (testRun : Bool) :
    Except AmountError Nat :=
  let balance := applyIrreducible rawBalance irreducibleBalance
  if balance ≤ standardFee then .error .insufficientBalance
  else .ok (if waves < balance ∧ testRun = true then waves else balance)

/-- `fee := standardFee + extraFee` in `uint64` arithmetic (`lessor.go:355`, `439`). -/
def txFee (extraFee : Nat) : Nat := (standardFee + extraFee) % 2 ^ 64

/-- `amount := balance - fee` in `uint64` arithmetic (`lessor.go:356`, `440`):
the subtraction wraps modulo `2^64` when `fee > balance`. -/
def txAmount (balance fee : Nat) : Nat :=
  (balance % 2 ^ 64 + 2 ^ 64 - fee % 2 ^ 64) % 2 ^ 64

/-- The spec's Amount Policy Engine as implemented by `lessor.go:324-360`:
reservation, insufficient-balance pre-check against `standardFee` alone,
test-run cap, fee subtraction, and the non-positive-amount check
(`amount` is `uint64`, so the source's `amount <= 0` holds only for `amount == 0`). -/
def computeSpendableAmount (rawBalance : Nat) (irreducibleBalance : Int) (testRun : Bool)
    (extraFee : Nat) : Except AmountError Nat :=
  match adjustedBalance rawBalance irreducibleBalance testRun with
  | .error e => .error e
  | .ok balance =>
      let fee := txFee extraFee
      let amount := txAmount balance fee
      if amount ≤ 0 then .error .nonPositiveAmount else .ok amount

/-- One entry of the node's activation-status response (`lessor.go:37-43`,
`type feature`). -/
structure Feature where
  id : Int
  description : String
  blockchainStatus : String
  nodeStatus : String
  activationHeight : Int
deriving DecidableEq

/-- `isProtobufActivated` (`lessor.go:584-600`): scans the features of the
activation-status response for id 15 with blockchain status ACTIVATED and node
status IMPLEMENTED or VOTED. -/
def isProtobufActivated (features : List Feature) : Bool :=
  features.any fun f =>
    f.id == 15 && f.blockchainStatus == "ACTIVATED" &&
      (f.nodeStatus == "IMPLEMENTED" || f.nodeStatus == "VOTED")

/-- Transaction version selection (`lessor.go:268-271`): `txVer` is 2, or 3 when
the protobuf feature is activated. -/
def txVersion (protobuf : Bool) : Nat := if protobuf then 3 else 2

/-- Which of the two queried accounts a collaborator call concerns. -/
inductive Party
  | generator
  | lessor
deriving DecidableEq

/-- Kinds of transactions the run builds. -/
inductive TxKind
  | transfer
  | lease
deriving DecidableEq

/-- The observable content of a built transaction: kind, version, amount and fee
(`proto.NewUnsignedTransferWithProofs` / `proto.NewUnsignedLeaseWithProofs`
arguments decided by the pipeline; sender, recipient and timestamp are fixed by
the resolved accounts and the clock). -/
structure Tx where
  kind : TxKind
  version : Nat
  amount : Nat
  fee : Nat
deriving DecidableEq

/-- Collaborator interactions of the pipeline, in program order. -/
inductive Event
  | queryBalance (who : Party)
  | queryExtraFee (who : Party)
  | render (tx : Tx)
  | broadcast (tx : Tx)
  | track (tx : Tx)
deriving DecidableEq

/-- The transaction an event carries, if any. -/
def eventTx : Event → Option Tx
  | .render tx => some tx
  | .broadcast tx => some tx
  | .track tx => some tx
  | _ => none

/-- Errors `run` returns (`lessor.go:29-35`); `other` stands for any
non-sentinel error reaching `main`. -/
inductive RunError
  | invalidParameters
  | userTermination
  | failure
  | other
deriving DecidableEq

/-- Exit-code mapping of `main` (`lessor.go:96-111`). -/
def exitCode : RunError → Nat
  | .invalidParameters => 2
  | .userTermination => 130
  | .failure => 70
  | .other => 1

/-- The run configuration the modelled pipeline fragment reads
(`RunConfiguration` of the spec; flags of `lessor.go:129-141`). -/
structure Config where
  transferOnly : Bool
  dryRun : Bool
  testRun : Bool
  irreducibleBalance : Int
  leasingThreshold : Int
deriving DecidableEq

/-- Answers of the node collaborators consumed by the pipeline: activation
features, the two available balances and the two extra fees.  The model takes
the successful-answer case; a failed collaborator call aborts the run before
any further event, which only removes events from the traces below. -/
structure Env where
  features : List Feature
  generatorBalance : Nat
  lessorBalance : Nat
  generatorExtraFee : Nat
  lessorExtraFee : Nat
deriving DecidableEq

/-- Submission of a signed transaction (`lessor.go:367-392` for the transfer,
`457-482` for the lease): in dry-run mode the transaction is marshalled and
logged (`render`), otherwise it is broadcast and then tracked. -/
def submitPhase (dryRun : Bool) (tx : Tx) : List Event :=
  if dryRun then [.render tx] else [.broadcast tx, .track tx]

/-- Steps 4-5 of `run` (`lessor.go:314-392`): query the generator balance,
adjust it, query the extra fee, compute fee and amount, reject a zero amount
(`amount <= 0` on `uint64`), then build, sign and submit the transfer. -/
def transferPhase (cfg : Config) (env : Env) (txVer : Nat) :
    List Event × Except RunError Unit :=
  match adjustedBalance env.generatorBalance cfg.irreducibleBalance cfg.testRun with
  | .error _ => ([.queryBalance .generator], .error .failure)
  | .ok balance =>
      let fee := txFee env.generatorExtraFee
      let amount := txAmount balance fee
      if amount ≤ 0 then
        ([.queryBalance .generator, .queryExtraFee .generator], .error .failure)
      else
        ([.queryBalance .generator, .queryExtraFee .generator] ++
          submitPhase cfg.dryRun ⟨.transfer, txVer, amount, fee⟩, .ok ())

/-- Steps 6-7 of `run` (`lessor.go:398-482`): query the lessor balance, adjust
it, query the extra fee, compute fee and amount, reject a zero amount, skip
with success when a positive leasing threshold exceeds the amount
(`lessor.go:445-450`), otherwise build, sign and submit the lease. -/
def leasePhase (cfg : Config) (env : Env) (txVer : Nat) :
    List Event × Except RunError Unit :=
  match adjustedBalance env.lessorBalance cfg.irreducibleBalance cfg.testRun with
  | .error _ => ([.queryBalance .lessor], .error .failure)
  | .ok balance =>
      let fee := txFee env.lessorExtraFee
      let amount := txAmount balance fee
      if amount ≤ 0 then
        ([.queryBalance .lessor, .queryExtraFee .lessor], .error .failure)
      else
        let submit :=
          ([.queryBalance .lessor, .queryExtraFee .lessor] ++
            submitPhase cfg.dryRun ⟨.lease, txVer, amount, fee⟩, Except.ok ())
        if 0 < cfg.leasingThreshold then
          if amount < cfg.leasingThreshold.toNat then
            ([.queryBalance .lessor, .queryExtraFee .lessor], .ok ())
          else submit
        else submit

/-- The orchestration pipeline of `run` after configuration validation,
connection and account resolution (`lessor.go:260-485`): pick the transaction
version from the activation status, run the transfer phase, stop with success
in transfer-only mode (`lessor.go:393-396`), otherwise run the lease phase. -/
def runPipeline (cfg : Config) (env : Env) : List Event × Except RunError Unit :=
  let txVer := txVersion (isProtobufActivated env.features)
  match transferPhase cfg env txVer with
  | (evs, .error e) => (evs, .error e)
  | (evs, .ok _) =>
      if cfg.transferOnly then (evs, .ok ())
      else
        let lease := leasePhase cfg env txVer
        (evs ++ lease.1, lease.2)

/-- One observation of the polling loop body in `track` (`lessor.go:494-503`):
either the lookup call failed with the cancellation error, or it produced a
response with some HTTP status code. -/
inductive PollResult
  | canceled
  | response (status : Nat)
deriving DecidableEq

/-- How `track` ends: the transaction was found (HTTP 200) or the run was
cancelled. -/
inductive TrackOutcome
  | confirmed
  | cancelled
deriving DecidableEq

/-- One iteration of the loop in `track` (`lessor.go:494-503`): return the
cancellation error when the lookup was cancelled, return success on HTTP 200,
otherwise sleep and continue (`none`). -/
def trackStep : PollResult → Option TrackOutcome
  | .canceled => some .cancelled
  | .response status => if status = 200 then some .confirmed else none

/-- The unbounded loop of `track` observed along a finite sequence of poll
results: the first poll that is a cancellation or an HTTP 200 decides the
outcome; `none` means the loop is still running after consuming the whole
sequence. -/
def track : List PollResult → Option TrackOutcome
  | [] => none
  | p :: ps =>
      match trackStep p with
      | some o => some o
      | none => track ps

/-- Outcome of parsing one command-line value: the flag was left empty, the
value failed to parse (base58 / URL / address decoding error from the
collaborator codecs), or it parsed. -/
inductive ParamInput
  | missing
  | malformed
  | valid
deriving DecidableEq

/-- The configuration values `run` validates before any network activity
(`lessor.go:153-228`), each given with its parse outcome. -/
structure CliInput where
  nodeURL : ParamInput
  generatorSK : ParamInput
  transferOnly : Bool
  recipientAddress : ParamInput
  lessorSK : ParamInput
  lessorPK : ParamInput
  leasingAddress : ParamInput
  irreducibleBalance : Int
deriving DecidableEq

/-- The final validation step (`lessor.go:222-225`): a negative irreducible
balance is invalid. -/
def irreducibleCheck (c : CliInput) : Option RunError :=
  if c.irreducibleBalance < 0 then some .invalidParameters else none

/-- The configuration validation of `run` (`lessor.go:153-228`), in source
order.  Note two source particulars that the theorems below exercise: a failed
`normalizeURL` on a nonempty URL is only logged — the run continues
(`lessor.go:157-161` has no return on error) — and a malformed lessor public
key or leasing address returns `errFailure`, not `errInvalidParameters`
(`lessor.go:204-219`).  `none` means validation passed and the run proceeds to
the network phase. -/
def validateParams (c : CliInput) : Option RunError :=
  if c.nodeURL = .missing then some .invalidParameters
  else if c.generatorSK = .missing then some .invalidParameters
  else if c.generatorSK = .malformed then some .invalidParameters
  else if c.transferOnly then
    if c.recipientAddress = .missing then some .invalidParameters
    else if c.recipientAddress = .malformed then some .invalidParameters
    else irreducibleCheck c
  else
    if c.lessorSK = .missing then some .invalidParameters
    else if c.lessorSK = .malformed then some .invalidParameters
    else if c.lessorPK = .malformed then some .failure
    else if c.leasingAddress = .malformed then some .failure
    else irreducibleCheck c

/-- With no (or a non-positive) irreducible balance the reservation step leaves
the balance untouched. -/
theorem applyIrreducible_nonpos (raw : Nat) (irr : Int) (h : irr ≤ 0) :
    applyIrreducible raw irr = raw := by
  unfold applyIrreducible
  rw [if_neg (by omega)]

/-- As long as the mathematical difference `raw - irr` is below `2^63`, the
reservation step computes exactly the clamped difference (for `raw ≥ 2^63` the
intermediate `int64` subtraction overflows a second time, cancelling the signed
reinterpretation of the balance). -/
theorem applyIrreducible_exact (raw : Nat) (irr : Int)
    (h64 : raw < 2 ^ 64) (h0 : 0 < irr) (h63 : irr < 2 ^ 63)
    (hlt : (raw : Int) - irr < 2 ^ 63) :
    applyIrreducible raw irr = ((raw : Int) - irr).toNat := by
  unfold applyIrreducible wrapInt64 toInt64
  rw [if_pos h0, Nat.mod_eq_of_lt h64]
  dsimp only
  split_ifs <;> omega

/-- When the mathematical difference `raw - irr` is at least `2^63`, the signed
reinterpretation of the balance makes the intermediate `int64` value negative
and the reservation step clamps the working balance to zero. -/
theorem applyIrreducible_clamp (raw : Nat) (irr : Int)
    (h64 : raw < 2 ^ 64) (h0 : 0 < irr) (h63 : irr < 2 ^ 63)
    (hge : 2 ^ 63 ≤ (raw : Int) - irr) :
    applyIrreducible raw irr = 0 := by
  unfold applyIrreducible wrapInt64 toInt64
  rw [if_pos h0, Nat.mod_eq_of_lt h64]
  dsimp only
  split_ifs <;> omega

/-- C1: the claim predicts a non-positive-amount failure for every
post-reservation balance `b` with `standardFee < b <= standardFee + e` and
`e > 0`, but the source computes `amount := balance - fee` on `uint64`, so for
`b = standardFee + 1` and `e = 2` the subtraction wraps to `2^64 - 1`, the
`amount <= 0` check passes, and the transfer is built and broadcast with that
amount.  The source's own message for this check reads "Negative of zero
amount", a condition the unsigned type cannot represent. -/
theorem transfer_amount_underflow_builds_tx :
    standardFee < 100001 ∧ 100001 ≤ standardFee + 2 ∧
    computeSpendableAmount 100001 0 false 2 = .ok 18446744073709551615 ∧
    Event.broadcast ⟨.transfer, 2, 18446744073709551615, 100002⟩ ∈
      (runPipeline ⟨false, false, false, 0, 0⟩ ⟨[], 100001, 0, 2, 0⟩).1 := by
  decide

/-- C2 counterexample: at `rawBalance = 2^63 + 1`, `irreducibleBalance = 1`,
`extraFee = 0` the claim's premise `rawBalance > irreducibleBalance +
standardFee + extraFee` holds, yet the computation does not return the exact
difference: the signed reinterpretation of the balance makes the reservation
clamp to zero and the run fails with the insufficient-balance error. -/
theorem spendable_exact_fails_at_overflow :
    1 + standardFee + 0 < (2 ^ 63 + 1 : Nat) ∧
    computeSpendableAmount (2 ^ 63 + 1) 1 false 0 ≠
      .ok ((2 ^ 63 + 1) - 1 - standardFee - 0) ∧
    computeSpendableAmount (2 ^ 63 + 1) 1 false 0 = .error .insufficientBalance := by
  decide

/-- C2 (amended): for every `rawBalance > irreducibleBalance + standardFee +
extraFee` whose working difference stays below `2^63` (or with no reservation
at all), the spendable-amount computation succeeds and returns exactly
`rawBalance - irreducibleBalance - standardFee - extraFee`. -/
theorem computeSpendableAmount_exact (rawBalance extraFee : Nat) (irr : Int)
    (h64 : rawBalance < 2 ^ 64) (h0 : 0 ≤ irr) (h63 : irr < 2 ^ 63)
    (hov : irr = 0 ∨ (rawBalance : Int) - irr < 2 ^ 63)
    (hgt : irr + standardFee + extraFee < (rawBalance : Int)) :
    computeSpendableAmount rawBalance irr false extraFee =
      .ok (rawBalance - irr.toNat - standardFee - extraFee) := by
  have hbal : applyIrreducible rawBalance irr = rawBalance - irr.toNat := by
    rcases hov with h | h
    · subst h
      rw [applyIrreducible_nonpos _ _ le_rfl]
      omega
    · rcases lt_or_eq_of_le h0 with h0' | h0'
      · rw [applyIrreducible_exact _ _ h64 h0' h63 h]
        omega
      · rw [← h0', applyIrreducible_nonpos _ _ le_rfl]
        omega
  simp only [computeSpendableAmount, adjustedBalance, txFee, txAmount, hbal,
    Bool.false_eq_true, and_false, if_false]
  rw [if_neg (by omega)]
  dsimp only
  rw [if_neg (by omega)]
  rw [Except.ok.injEq]
  omega

/-- C2 witness: the spec's own scenario, via the exactness theorem. -/
theorem computeSpendableAmount_exact_witness :
    computeSpendableAmount 150000000 100000000 false 0 = .ok 49900000 := by
  have h := computeSpendableAmount_exact 150000000 0 100000000 (by norm_num) (by norm_num)
    (by norm_num) (Or.inr (by norm_num)) (by norm_num [standardFee])
  simpa [standardFee] using h

/-- C3 counterexample: at `rawBalance = 2^63 + 100`, `irreducibleBalance = 2`
the subtract-and-clamp balance is `2^63 + 98 > standardFee`, so the claim
predicts no insufficient-balance failure, yet the source clamps the working
balance to zero (signed reinterpretation) and fails. -/
theorem reservation_precheck_fails_at_overflow :
    adjustedBalance (2 ^ 63 + 100) 2 false = .error .insufficientBalance ∧
    standardFee < ((2 ^ 63 + 100 : Int) - 2).toNat := by
  decide

/-- C3 (amended): for every `rawBalance` and `irreducibleBalance` whose
difference stays below `2^63` (or with no reservation), the reservation
subtracts and clamps at zero, and the run fails with the insufficient-balance
error exactly when that clamped balance is at most `standardFee` alone; in
particular every `rawBalance <= irreducibleBalance` fails. -/
theorem reservation_precheck_iff (raw : Nat) (irr : Int) (testRun : Bool)
    (h64 : raw < 2 ^ 64) (h0 : 0 ≤ irr) (h63 : irr < 2 ^ 63)
    (hov : irr = 0 ∨ (raw : Int) - irr < 2 ^ 63) :
    applyIrreducible raw irr = ((raw : Int) - irr).toNat ∧
    (adjustedBalance raw irr testRun = .error .insufficientBalance ↔
      ((raw : Int) - irr).toNat ≤ standardFee) ∧
    ((raw : Int) ≤ irr → adjustedBalance raw irr testRun = .error .insufficientBalance) := by
  have hbal : applyIrreducible raw irr = ((raw : Int) - irr).toNat := by
    rcases hov with h | h
    · subst h
      rw [applyIrreducible_nonpos _ _ le_rfl]
      omega
    · rcases lt_or_eq_of_le h0 with h0' | h0'
      · exact applyIrreducible_exact _ _ h64 h0' h63 h
      · rw [← h0', applyIrreducible_nonpos _ _ le_rfl]
        omega
  refine ⟨hbal, ?_, ?_⟩
  · simp only [adjustedBalance, hbal]
    by_cases hle : ((raw : Int) - irr).toNat ≤ standardFee
    · simp [hle]
    · simp [hle]
  · intro hri
    simp only [adjustedBalance, hbal]
    rw [if_pos (by omega)]

/-- C3 witness: the spec's boundary scenario `rawBalance = standardFee`,
no reservation, via the characterization theorem. -/
theorem reservation_precheck_iff_witness :
    applyIrreducible 100000 0 = ((100000 : Int) - 0).toNat ∧
    (adjustedBalance 100000 0 false = .error .insufficientBalance ↔
      ((100000 : Int) - 0).toNat ≤ standardFee) ∧
    ((100000 : Int) ≤ 0 → adjustedBalance 100000 0 false = .error .insufficientBalance) :=
  reservation_precheck_iff 100000 0 false (by norm_num) le_rfl (by norm_num) (Or.inl rfl)

/-- C10 counterexample: at `rawBalance = 2^63` with `irreducibleBalance = 1`
the signed reinterpretation is negative, but the `int64` subtraction overflows
a second time, the two wraps cancel, and the run proceeds with the exact
difference instead of clamping to zero and failing. -/
theorem reservation_double_wrap_counterexample :
    (2 ^ 63 : Nat) ≥ 2 ^ 63 ∧ (0 : Int) < 1 ∧
    applyIrreducible (2 ^ 63) 1 = 2 ^ 63 - 1 ∧
    computeSpendableAmount (2 ^ 63) 1 false 0 = .ok (2 ^ 63 - 1 - 100000) := by
  decide

/-- C10 (amended): for every raw available balance with `rawBalance -
irreducibleBalance >= 2^63` (rather than every `rawBalance >= 2^63`) and a
positive irreducible balance, the reservation step treats the signed
reinterpretation as negative, clamps the working balance to zero, and the run
fails with the insufficient-balance error even though the true balance exceeds
the reservation plus the base fee. -/
theorem reservation_overflow_clamp (raw : Nat) (irr : Int) (testRun : Bool) (extraFee : Nat)
    (h64 : raw < 2 ^ 64) (h0 : 0 < irr) (h63 : irr < 2 ^ 63)
    (hge : 2 ^ 63 ≤ (raw : Int) - irr) :
    applyIrreducible raw irr = 0 ∧
    computeSpendableAmount raw irr testRun extraFee = .error .insufficientBalance ∧
    irr + standardFee < (raw : Int) := by
  have hbal := applyIrreducible_clamp raw irr h64 h0 h63 hge
  refine ⟨hbal, ?_, ?_⟩
  · simp only [computeSpendableAmount, adjustedBalance, hbal]
    rw [if_pos (by simp [standardFee])]
  · have : standardFee = 100000 := rfl
    omega

/-- C10 witness: a concrete balance in the clamping region. -/
theorem reservation_overflow_clamp_witness :
    applyIrreducible (2 ^ 63 + 5) 5 = 0 ∧
    computeSpendableAmount (2 ^ 63 + 5) 5 false 0 = .error .insufficientBalance ∧
    (5 : Int) + standardFee < ((2 ^ 63 + 5 : Nat) : Int) :=
  reservation_overflow_clamp (2 ^ 63 + 5) 5 false 0 (by norm_num) (by norm_num)
    (by norm_num) (by push_cast)

/-- C9: the claim maps every malformed or missing configuration value to the
invalid-parameters result, but the source diverges twice: a nonempty node URL
that fails `normalizeURL` is only logged and the run proceeds to the network
phase (`lessor.go:157-161` does not return on error), and a malformed lessor
public key or leasing address returns `errFailure` (exit code 70), not
`errInvalidParameters` (exit code 2) (`lessor.go:204-219`). -/
theorem validation_divergence :
    validateParams ⟨.malformed, .valid, false, .valid, .valid, .valid, .valid, 100000000⟩
      = none ∧
    validateParams ⟨.valid, .valid, false, .valid, .valid, .malformed, .valid, 100000000⟩
      = some .failure ∧
    validateParams ⟨.valid, .valid, false, .valid, .valid, .valid, .malformed, 100000000⟩
      = some .failure ∧
    exitCode .failure = 70 ∧ exitCode .invalidParameters = 2 := by
  decide

/-- C6: along any finite window of poll results in which the transaction is
not yet found, the tracking loop is still running (`none`); the first poll
that reports cancellation ends the wait with the cancellation outcome, and the
first poll that reports HTTP 200 ends it with confirmation. -/
theorem track_polling (ps qs : List PollResult)
    (hps : ∀ p ∈ ps, ∃ s, p = PollResult.response s ∧ s ≠ 200) :
    track ps = none ∧
    track (ps ++ PollResult.canceled :: qs) = some TrackOutcome.cancelled ∧
    track (ps ++ PollResult.response 200 :: qs) = some TrackOutcome.confirmed := by
  induction ps with
  | nil => simp [track, trackStep]
  | cons p ps ih =>
      obtain ⟨s, rfl, hs⟩ := hps p (by simp)
      have ih' := ih fun q hq => hps q (by simp [hq])
      simp [track, trackStep, hs, ih'.1, ih'.2.1, ih'.2.2]

/-- Events of a submission phase are the render, broadcast and track of the
submitted transaction. -/
theorem mem_submitPhase {e : Event} {d : Bool} {tx : Tx} (he : e ∈ submitPhase d tx) :
    e = .render tx ∨ e = .broadcast tx ∨ e = .track tx := by
  cases d <;> simp [submitPhase] at he <;> tauto

/-- Any transaction carried by a submission-phase event is the submitted one. -/
theorem eventTx_submitPhase {e : Event} {d : Bool} {tx tx2 : Tx}
    (he : e ∈ submitPhase d tx) (h : eventTx e = some tx2) : tx2 = tx := by
  rcases mem_submitPhase he with h1 | h1 | h1 <;> subst h1 <;>
    simp only [eventTx, Option.some.injEq] at h <;> exact h.symm

/-- Value of the transfer phase when the balance adjustment succeeds and the
amount check passes. -/
theorem transferPhase_ok (cfg : Config) (env : Env) (v : Nat) (gb : Nat)
    (hgb : adjustedBalance env.generatorBalance cfg.irreducibleBalance cfg.testRun = .ok gb)
    (hga : ¬ txAmount gb (txFee env.generatorExtraFee) ≤ 0) :
    transferPhase cfg env v =
      ([.queryBalance .generator, .queryExtraFee .generator] ++
        submitPhase cfg.dryRun
          ⟨.transfer, v, txAmount gb (txFee env.generatorExtraFee), txFee env.generatorExtraFee⟩,
        .ok ()) := by
  simp only [transferPhase, hgb]
  rw [if_neg hga]

/-- Value of the lease phase when the amount passes and a configured threshold
exceeds it: skip with success, nothing submitted (`lessor.go:445-450`). -/
theorem leasePhase_skip (cfg : Config) (env : Env) (v : Nat) (lb : Nat)
    (hlb : adjustedBalance env.lessorBalance cfg.irreducibleBalance cfg.testRun = .ok lb)
    (hla : ¬ txAmount lb (txFee env.lessorExtraFee) ≤ 0)
    (ht : 0 < cfg.leasingThreshold)
    (hlt : txAmount lb (txFee env.lessorExtraFee) < cfg.leasingThreshold.toNat) :
    leasePhase cfg env v = ([.queryBalance .lessor, .queryExtraFee .lessor], .ok ()) := by
  simp only [leasePhase, hlb]
  rw [if_neg hla, if_pos ht, if_pos hlt]

/-- Value of the lease phase when the amount passes and no threshold skip
applies: the lease is submitted. -/
theorem leasePhase_submit (cfg : Config) (env : Env) (v : Nat) (lb : Nat)
    (hlb : adjustedBalance env.lessorBalance cfg.irreducibleBalance cfg.testRun = .ok lb)
    (hla : ¬ txAmount lb (txFee env.lessorExtraFee) ≤ 0)
    (hns : ¬ (0 < cfg.leasingThreshold ∧
      txAmount lb (txFee env.lessorExtraFee) < cfg.leasingThreshold.toNat)) :
    leasePhase cfg env v =
      ([.queryBalance .lessor, .queryExtraFee .lessor] ++
        submitPhase cfg.dryRun
          ⟨.lease, v, txAmount lb (txFee env.lessorExtraFee), txFee env.lessorExtraFee⟩,
        .ok ()) := by
  simp only [leasePhase, hlb]
  rw [if_neg hla]
  by_cases ht : 0 < cfg.leasingThreshold
  · rw [if_pos ht, if_neg fun hc => hns ⟨ht, hc⟩]
  · rw [if_neg ht]

/-- The whole pipeline in transfer-only mode with a passing transfer phase
(`lessor.go:393-396`). -/
theorem runPipeline_transferOnly (cfg : Config) (env : Env) (gb : Nat)
    (hT : cfg.transferOnly = true)
    (hgb : adjustedBalance env.generatorBalance cfg.irreducibleBalance cfg.testRun = .ok gb)
    (hga : ¬ txAmount gb (txFee env.generatorExtraFee) ≤ 0) :
    runPipeline cfg env =
      ([.queryBalance .generator, .queryExtraFee .generator] ++
        submitPhase cfg.dryRun
          ⟨.transfer, txVersion (isProtobufActivated env.features),
            txAmount gb (txFee env.generatorExtraFee), txFee env.generatorExtraFee⟩,
        .ok ()) := by
  unfold runPipeline
  dsimp only
  rw [transferPhase_ok cfg env _ gb hgb hga]
  simp [hT]

/-- The whole pipeline with a passing transfer phase and transfer-only off:
the transfer events followed by the lease phase. -/
theorem runPipeline_full (cfg : Config) (env : Env) (gb : Nat)
    (hT : cfg.transferOnly = false)
    (hgb : adjustedBalance env.generatorBalance cfg.irreducibleBalance cfg.testRun = .ok gb)
    (hga : ¬ txAmount gb (txFee env.generatorExtraFee) ≤ 0) :
    runPipeline cfg env =
      (([.queryBalance .generator, .queryExtraFee .generator] ++
        submitPhase cfg.dryRun
          ⟨.transfer, txVersion (isProtobufActivated env.features),
            txAmount gb (txFee env.generatorExtraFee), txFee env.generatorExtraFee⟩) ++
        (leasePhase cfg env (txVersion (isProtobufActivated env.features))).1,
        (leasePhase cfg env (txVersion (isProtobufActivated env.features))).2) := by
  unfold runPipeline
  dsimp only
  rw [transferPhase_ok cfg env _ gb hgb hga]
  simp [hT]

/-- Shape of transfer-phase events: generator queries or the submission of a
version-`v` transfer. -/
theorem transferPhase_mem (cfg : Config) (env : Env) (v : Nat) (e : Event)
    (he : e ∈ (transferPhase cfg env v).1) :
    e = .queryBalance .generator ∨ e = .queryExtraFee .generator ∨
      ∃ tx : Tx, tx.kind = .transfer ∧ tx.version = v ∧ e ∈ submitPhase cfg.dryRun tx := by
  unfold transferPhase at he
  split at he
  · simp only [List.mem_singleton] at he
    exact Or.inl he
  · dsimp only at he
    split at he
    · simp only [List.mem_cons, List.not_mem_nil, or_false] at he
      tauto
    · simp only [List.append_eq, List.cons_append, List.nil_append, List.mem_cons] at he
      rcases he with he | he | he
      · exact Or.inl he
      · exact Or.inr (Or.inl he)
      · exact Or.inr (Or.inr ⟨_, rfl, rfl, he⟩)

/-- Shape of lease-phase events: lessor queries or the submission of a
version-`v` lease. -/
theorem leasePhase_mem (cfg : Config) (env : Env) (v : Nat) (e : Event)
    (he : e ∈ (leasePhase cfg env v).1) :
    e = .queryBalance .lessor ∨ e = .queryExtraFee .lessor ∨
      ∃ tx : Tx, tx.kind = .lease ∧ tx.version = v ∧ e ∈ submitPhase cfg.dryRun tx := by
  unfold leasePhase at he
  split at he
  · simp only [List.mem_singleton] at he
    exact Or.inl he
  · dsimp only at he
    split at he
    · simp only [List.mem_cons, List.not_mem_nil, or_false] at he
      tauto
    · split at he
      · split at he
        · simp only [List.mem_cons, List.not_mem_nil, or_false] at he
          tauto
        · simp only [List.append_eq, List.cons_append, List.nil_append, List.mem_cons] at he
          rcases he with he | he | he
          · exact Or.inl he
          · exact Or.inr (Or.inl he)
          · exact Or.inr (Or.inr ⟨_, rfl, rfl, he⟩)
      · simp only [List.append_eq, List.cons_append, List.nil_append, List.mem_cons] at he
        rcases he with he | he | he
        · exact Or.inl he
        · exact Or.inr (Or.inl he)
        · exact Or.inr (Or.inr ⟨_, rfl, rfl, he⟩)

/-- Shape of pipeline events: balance or extra-fee queries, or the submission
of a transaction whose version is the one selected from the activation
status. -/
theorem runPipeline_mem (cfg : Config) (env : Env) (e : Event)
    (he : e ∈ (runPipeline cfg env).1) :
    (∃ p, e = .queryBalance p) ∨ (∃ p, e = .queryExtraFee p) ∨
      ∃ tx : Tx, tx.version = txVersion (isProtobufActivated env.features) ∧
        e ∈ submitPhase cfg.dryRun tx := by
  have resolve : ∀ v, e ∈ (transferPhase cfg env v).1 ∨ e ∈ (leasePhase cfg env v).1 →
      (∃ p, e = Event.queryBalance p) ∨ (∃ p, e = Event.queryExtraFee p) ∨
        ∃ tx : Tx, tx.version = v ∧ e ∈ submitPhase cfg.dryRun tx := by
    intro v hv
    rcases hv with hv | hv
    · rcases transferPhase_mem cfg env v e hv with h | h | ⟨tx, _, hver, hmem⟩
      · exact Or.inl ⟨_, h⟩
      · exact Or.inr (Or.inl ⟨_, h⟩)
      · exact Or.inr (Or.inr ⟨tx, hver, hmem⟩)
    · rcases leasePhase_mem cfg env v e hv with h | h | ⟨tx, _, hver, hmem⟩
      · exact Or.inl ⟨_, h⟩
      · exact Or.inr (Or.inl ⟨_, h⟩)
      · exact Or.inr (Or.inr ⟨tx, hver, hmem⟩)
  unfold runPipeline at he
  dsimp only at he
  rcases htp : transferPhase cfg env (txVersion (isProtobufActivated env.features))
    with ⟨tevs, tres⟩
  rw [htp] at he
  have htevs : tevs =
      (transferPhase cfg env (txVersion (isProtobufActivated env.features))).1 := by
    rw [htp]
  cases tres with
  | error err =>
      dsimp only at he
      exact resolve _ (Or.inl (htevs ▸ he))
  | ok u =>
      dsimp only at he
      by_cases hT : cfg.transferOnly = true
      · rw [if_pos hT] at he
        exact resolve _ (Or.inl (htevs ▸ he))
      · rw [if_neg hT] at he
        dsimp only at he
        rw [List.mem_append] at he
        rcases he with he | he
        · exact resolve _ (Or.inl (htevs ▸ he))
        · exact resolve _ (Or.inr he)

/-- C4: with the lease phase reached and its amount check passed, a configured
positive threshold strictly above the amount skips the lease — the run ends in
success with no lease transaction built or submitted — while an amount at
least the threshold (or an unconfigured threshold, which never skips) builds
and submits the lease. -/
theorem leasingThreshold_boundary (cfg : Config) (env : Env) (gb lb : Nat)
    (hT : cfg.transferOnly = false) (hdry : cfg.dryRun = false)
    (hgb : adjustedBalance env.generatorBalance cfg.irreducibleBalance cfg.testRun = .ok gb)
    (hga : ¬ txAmount gb (txFee env.generatorExtraFee) ≤ 0)
    (hlb : adjustedBalance env.lessorBalance cfg.irreducibleBalance cfg.testRun = .ok lb)
    (hla : ¬ txAmount lb (txFee env.lessorExtraFee) ≤ 0) :
    (0 < cfg.leasingThreshold →
      txAmount lb (txFee env.lessorExtraFee) < cfg.leasingThreshold.toNat →
      (runPipeline cfg env).2 = .ok () ∧
      ∀ tx : Tx, tx.kind = .lease →
        Event.render tx ∉ (runPipeline cfg env).1 ∧
        Event.broadcast tx ∉ (runPipeline cfg env).1 ∧
        Event.track tx ∉ (runPipeline cfg env).1) ∧
    (¬ (0 < cfg.leasingThreshold ∧
        txAmount lb (txFee env.lessorExtraFee) < cfg.leasingThreshold.toNat) →
      (runPipeline cfg env).2 = .ok () ∧
      Event.broadcast ⟨.lease, txVersion (isProtobufActivated env.features),
        txAmount lb (txFee env.lessorExtraFee), txFee env.lessorExtraFee⟩ ∈
          (runPipeline cfg env).1 ∧
      Event.track ⟨.lease, txVersion (isProtobufActivated env.features),
        txAmount lb (txFee env.lessorExtraFee), txFee env.lessorExtraFee⟩ ∈
          (runPipeline cfg env).1) := by
  constructor
  · intro ht hlt
    rw [runPipeline_full cfg env gb hT hgb hga,
      leasePhase_skip cfg env _ lb hlb hla ht hlt]
    refine ⟨rfl, ?_⟩
    intro tx htx
    refine ⟨?_, ?_, ?_⟩ <;>
      · simp only [List.mem_append, List.mem_cons, List.not_mem_nil, or_false,
          submitPhase, hdry, Bool.false_eq_true, if_false]
        rintro (⟨h | h | rfl | h⟩ | h | h) <;> simp_all
  · intro hns
    rw [runPipeline_full cfg env gb hT hgb hga,
      leasePhase_submit cfg env _ lb hlb hla hns]
    refine ⟨rfl, ?_, ?_⟩ <;>
      simp [submitPhase, hdry]

/-- C4 witness: the spec's scenario — threshold 50000000, computed lease
amount 49999999 — skips the lease and ends in success. -/
theorem leasingThreshold_boundary_witness :
    (runPipeline ⟨false, false, false, 0, 50000000⟩ ⟨[], 200100, 50099999, 0, 0⟩).2 =
      .ok () ∧
    Event.broadcast ⟨.lease, 2, 49999999, 100000⟩ ∉
      (runPipeline ⟨false, false, false, 0, 50000000⟩ ⟨[], 200100, 50099999, 0, 0⟩).1 := by
  have h := (leasingThreshold_boundary ⟨false, false, false, 0, 50000000⟩
    ⟨[], 200100, 50099999, 0, 0⟩ 200100 50099999 rfl rfl (by decide) (by decide)
    (by decide) (by decide)).1 (by decide) (by decide)
  exact ⟨h.1, (h.2 ⟨.lease, 2, 49999999, 100000⟩ rfl).2.1⟩

/-- C5: in transfer-only mode, once the transfer phase completes the run
returns success at once: no lessor balance query, no lessor extra-fee query,
and no lease transaction event of any kind. -/
theorem transferOnly_short_circuit (cfg : Config) (env : Env) (gb : Nat)
    (hT : cfg.transferOnly = true)
    (hgb : adjustedBalance env.generatorBalance cfg.irreducibleBalance cfg.testRun = .ok gb)
    (hga : ¬ txAmount gb (txFee env.generatorExtraFee) ≤ 0) :
    (runPipeline cfg env).2 = .ok () ∧
    Event.queryBalance .lessor ∉ (runPipeline cfg env).1 ∧
    Event.queryExtraFee .lessor ∉ (runPipeline cfg env).1 ∧
    ∀ tx : Tx, tx.kind = .lease →
      Event.render tx ∉ (runPipeline cfg env).1 ∧
      Event.broadcast tx ∉ (runPipeline cfg env).1 ∧
      Event.track tx ∉ (runPipeline cfg env).1 := by
  rw [runPipeline_transferOnly cfg env gb hT hgb hga]
  refine ⟨rfl, ?_, ?_, ?_⟩
  · cases hd : cfg.dryRun <;> simp [submitPhase, hd]
  · cases hd : cfg.dryRun <;> simp [submitPhase, hd]
  · intro tx htx
    refine ⟨?_, ?_, ?_⟩ <;>
      · cases hd : cfg.dryRun <;>
          · simp only [List.mem_append, List.mem_cons, List.not_mem_nil, or_false,
              submitPhase, hd, Bool.false_eq_true, if_false, if_true]
            rintro h
            rcases h with (h | h | h) | h | h <;> simp_all

/-- C5 witness: a concrete transfer-only run. -/
theorem transferOnly_short_circuit_witness :
    (runPipeline ⟨true, false, false, 0, 0⟩ ⟨[], 200100, 0, 0, 0⟩).2 = .ok () ∧
    Event.queryBalance .lessor ∉
      (runPipeline ⟨true, false, false, 0, 0⟩ ⟨[], 200100, 0, 0, 0⟩).1 ∧
    Event.queryExtraFee .lessor ∉
      (runPipeline ⟨true, false, false, 0, 0⟩ ⟨[], 200100, 0, 0, 0⟩).1 ∧
    Event.broadcast ⟨.lease, 2, 1, 100000⟩ ∉
      (runPipeline ⟨true, false, false, 0, 0⟩ ⟨[], 200100, 0, 0, 0⟩).1 := by
  have h := transferOnly_short_circuit ⟨true, false, false, 0, 0⟩ ⟨[], 200100, 0, 0, 0⟩
    200100 rfl (by decide) (by decide)
  exact ⟨h.1, h.2.1, h.2.2.1, (h.2.2.2 ⟨.lease, 2, 1, 100000⟩ rfl).2.1⟩

/-- C7: the transaction version is 3 exactly when the activation status lists
a feature with id 15, blockchain status ACTIVATED and node status IMPLEMENTED
or VOTED, and 2 otherwise; every transaction the pipeline renders, broadcasts
or tracks carries this single version. -/
theorem txVersion_feature15 (features : List Feature) (cfg : Config) (env : Env) :
    (txVersion (isProtobufActivated features) = 3 ↔
      ∃ f ∈ features, f.id = 15 ∧ f.blockchainStatus = "ACTIVATED" ∧
        (f.nodeStatus = "IMPLEMENTED" ∨ f.nodeStatus = "VOTED")) ∧
    (txVersion (isProtobufActivated features) = 2 ↔
      ¬ ∃ f ∈ features, f.id = 15 ∧ f.blockchainStatus = "ACTIVATED" ∧
        (f.nodeStatus = "IMPLEMENTED" ∨ f.nodeStatus = "VOTED")) ∧
    ∀ e ∈ (runPipeline cfg env).1, ∀ tx, eventTx e = some tx →
      tx.version = txVersion (isProtobufActivated env.features) := by
  have hiff : isProtobufActivated features = true ↔
      ∃ f ∈ features, f.id = 15 ∧ f.blockchainStatus = "ACTIVATED" ∧
        (f.nodeStatus = "IMPLEMENTED" ∨ f.nodeStatus = "VOTED") := by
    simp [isProtobufActivated, List.any_eq_true, Bool.and_eq_true, Bool.or_eq_true,
      beq_iff_eq, and_assoc]
  refine ⟨?_, ?_, ?_⟩
  · rw [← hiff]
    cases h : isProtobufActivated features <;> simp [txVersion, h]
  · rw [← hiff]
    cases h : isProtobufActivated features <;> simp [txVersion, h]
  · intro e he tx htx
    rcases runPipeline_mem cfg env e he with ⟨p, rfl⟩ | ⟨p, rfl⟩ | ⟨tx2, hv, hmem⟩
    · simp [eventTx] at htx
    · simp [eventTx] at htx
    · rw [eventTx_submitPhase hmem htx]
      exact hv

/-- C7 witness: an activated feature 15 yields version 3; an empty feature
list yields version 2. -/
theorem txVersion_feature15_witness :
    txVersion (isProtobufActivated [⟨15, "", "ACTIVATED", "VOTED", 0⟩]) = 3 ∧
    txVersion (isProtobufActivated []) = 2 := by
  constructor
  · exact (txVersion_feature15 [⟨15, "", "ACTIVATED", "VOTED", 0⟩] ⟨false, false, false, 0, 0⟩
      ⟨[], 0, 0, 0, 0⟩).1.mpr ⟨⟨15, "", "ACTIVATED", "VOTED", 0⟩, by simp, rfl, rfl, Or.inr rfl⟩
  · exact (txVersion_feature15 [] ⟨false, false, false, 0, 0⟩
      ⟨[], 0, 0, 0, 0⟩).2.1.mpr (by simp)

/-- C8: with the dry-run flag set, the pipeline never broadcasts and never
tracks any transaction; the signed transfer — and, when the lease phase is
reached and not skipped, the signed lease — is rendered instead. -/
theorem dryRun_no_mutation (cfg : Config) (env : Env) (hd : cfg.dryRun = true) :
    (∀ tx : Tx, Event.broadcast tx ∉ (runPipeline cfg env).1 ∧
      Event.track tx ∉ (runPipeline cfg env).1) ∧
    (∀ gb : Nat,
      adjustedBalance env.generatorBalance cfg.irreducibleBalance cfg.testRun = .ok gb →
      ¬ txAmount gb (txFee env.generatorExtraFee) ≤ 0 →
      Event.render ⟨.transfer, txVersion (isProtobufActivated env.features),
        txAmount gb (txFee env.generatorExtraFee), txFee env.generatorExtraFee⟩ ∈
          (runPipeline cfg env).1) ∧
    (∀ gb lb : Nat, cfg.transferOnly = false →
      adjustedBalance env.generatorBalance cfg.irreducibleBalance cfg.testRun = .ok gb →
      ¬ txAmount gb (txFee env.generatorExtraFee) ≤ 0 →
      adjustedBalance env.lessorBalance cfg.irreducibleBalance cfg.testRun = .ok lb →
      ¬ txAmount lb (txFee env.lessorExtraFee) ≤ 0 →
      ¬ (0 < cfg.leasingThreshold ∧
        txAmount lb (txFee env.lessorExtraFee) < cfg.leasingThreshold.toNat) →
      Event.render ⟨.lease, txVersion (isProtobufActivated env.features),
        txAmount lb (txFee env.lessorExtraFee), txFee env.lessorExtraFee⟩ ∈
          (runPipeline cfg env).1) := by
  refine ⟨?_, ?_, ?_⟩
  · intro tx
    constructor <;> intro hmem <;>
      rcases runPipeline_mem cfg env _ hmem with ⟨p, h⟩ | ⟨p, h⟩ | ⟨tx2, hv, h⟩ <;>
        simp_all [submitPhase]
  · intro gb hgb hga
    by_cases hT : cfg.transferOnly = true
    · rw [runPipeline_transferOnly cfg env gb hT hgb hga]
      simp [submitPhase, hd]
    · rw [runPipeline_full cfg env gb (Bool.not_eq_true _ ▸ hT) hgb hga]
      simp [submitPhase, hd]
  · intro gb lb hT hgb hga hlb hla hns
    rw [runPipeline_full cfg env gb hT hgb hga,
      leasePhase_submit cfg env _ lb hlb hla hns]
    simp [submitPhase, hd]

/-- C8 witness: a concrete dry run reaching both transactions. -/
theorem dryRun_no_mutation_witness :
    Event.broadcast ⟨.transfer, 2, 100100, 100000⟩ ∉
      (runPipeline ⟨false, true, false, 0, 0⟩ ⟨[], 200100, 300100, 0, 0⟩).1 ∧
    Event.render ⟨.transfer, 2, 100100, 100000⟩ ∈
      (runPipeline ⟨false, true, false, 0, 0⟩ ⟨[], 200100, 300100, 0, 0⟩).1 ∧
    Event.render ⟨.lease, 2, 200100, 100000⟩ ∈
      (runPipeline ⟨false, true, false, 0, 0⟩ ⟨[], 200100, 300100, 0, 0⟩).1 := by
  have h := dryRun_no_mutation ⟨false, true, false, 0, 0⟩ ⟨[], 200100, 300100, 0, 0⟩ rfl
  exact ⟨(h.1 ⟨.transfer, 2, 100100, 100000⟩).1,
    h.2.1 200100 (by decide) (by decide),
    h.2.2 200100 300100 rfl (by decide) (by decide) (by decide) (by decide) (by decide)⟩

/-- C6 witness: one not-yet-found poll, then each terminating continuation. -/
theorem track_polling_witness :
    track [PollResult.response 404] = none ∧
    track ([PollResult.response 404] ++ PollResult.canceled :: []) =
      some TrackOutcome.cancelled ∧
    track ([PollResult.response 404] ++ PollResult.response 200 :: []) =
      some TrackOutcome.confirmed :=
  track_polling [PollResult.response 404] []
    (by intro p hp; simp only [List.mem_singleton] at hp; exact ⟨404, hp, by decide⟩)

end WavesLessor
